import Mathlib

/-!
Verification of the image-extraction core of the medical-image-classifier
repository (`src/utils/extract_images.py`), shallowly embedded in Lean 4.

Byte buffers are `List Nat`; URL and path strings are `List Char`.
External collaborators (PyMuPDF, requests, Pillow, BeautifulSoup) are
modelled as explicit environments holding deterministic oracle functions,
and every outbound HTTP request made by the embedded code is recorded in a
trace so that the network contract can be stated.
-/

/-- Raw encoded bytes of an image (Python `bytes`). -/
abbrev ByteBuf := List Nat

/-- A URL or filesystem path, as a list of characters (Python `str`). -/
abbrev UrlStr := List Char

/-! ## PDF extraction (`extract_images_from_pdf`) -/

/-- A parsed PDF document as `fitz` exposes it to the code: for each page,
`page.get_images(full=True)` yields a list of image records whose first
component is an xref; `doc.extract_image(xref)["image"]` yields raw bytes.
We keep exactly those two observables. -/
structure PdfDoc where
  pages : List (List Nat)
  extractImage : Nat → ByteBuf

/-- The `fitz` library as the code uses it: `fitz.open(path)` either yields a
parsed document or raises (missing file / unparseable document), which we
model as `Option`. -/
structure PdfEnv where
  openDoc : UrlStr → Option PdfDoc

/-- The spec's fatal error for a bad PDF path (`SourceUnavailable`). -/
inductive PdfError where
  | sourceUnavailable
deriving DecidableEq, Repr

/-- The inner loop of `extract_images_from_pdf`: starting from the running
`images` accumulator, append `doc.extract_image(img[0])["image"]` for every
image record of one page, in the reported order. -/
def pdfPageLoop (doc : PdfDoc) (xrefs : List Nat) (acc : List ByteBuf) : List ByteBuf :=
  xrefs.foldl (fun acc2 xref => acc2 ++ [doc.extractImage xref]) acc

/-- The page loop of `extract_images_from_pdf`: `for page in doc:` in page
order, running the in-page loop on each page's image list. -/
def pdfDocLoop (doc : PdfDoc) : List ByteBuf :=
  doc.pages.foldl (fun acc xrefs => pdfPageLoop doc xrefs acc) []

/-- `extract_images_from_pdf(pdf_path)`: `fitz.open` raises on a missing or
unparseable file (modelled as `Except.error .sourceUnavailable`); otherwise
the nested loops collect every embedded image's raw bytes. -/
def extract_images_from_pdf (env : PdfEnv) (pdf_path : UrlStr) :
    Except PdfError (List ByteBuf) :=
  match env.openDoc pdf_path with
  | none => .error .sourceUnavailable
  | some doc => .ok (pdfDocLoop doc)

/-! ## URL extraction: environment and helpers -/

/-- A decoded in-memory bitmap as Pillow exposes it: dimensions, channel
count, and pixel payload. -/
structure Bitmap where
  width : Nat
  height : Nat
  channels : Nat
  pixels : List Nat
deriving DecidableEq, Repr

/-- The Pillow image codec as the code uses it: `Image.open` (best-effort
decode, `none` = raise), `img.convert("RGB")`, and `img.save(format="JPEG")`. -/
structure Codec where
  decode : ByteBuf → Option Bitmap
  convertRGB : Bitmap → Bitmap
  encodeJPEG : Bitmap → ByteBuf

/-- One outbound HTTP GET request: url, timeout argument, extra headers. -/
structure NetRequest where
  url : UrlStr
  timeout : Nat
  headers : List (String × String)
deriving DecidableEq, Repr

/-- The network and parsing environment: `requests.get` as a deterministic
oracle from url to body (`none` = connection error or non-success status,
i.e. `raise_for_status` raising), and BeautifulSoup's extraction of the
`src` attribute of each `<img>` tag from a page body, in document order
(`none` = tag with no `src`). -/
structure NetEnv where
  fetch : UrlStr → Option ByteBuf
  parseImgSrcs : ByteBuf → List (Option UrlStr)
  codec : Codec

/-- The exception class of a failed `requests.get` / `raise_for_status`. -/
inductive NetError where
  | fetchFailed
deriving DecidableEq, Repr

/-- The desktop-browser `User-Agent` string attached in `download_and_convert`. -/
def uaString : String :=
  "Mozilla/5.0 (Windows NT 10.0; Win64; x64) AppleWebKit/537.36 (KHTML, like Gecko) Chrome/127.0.0.0 Safari/537.36"

/-- The `headers` dict passed by `download_and_convert`. -/
def uaHeaders : List (String × String) := [("User-Agent", uaString)]

/-- Python whitespace stripped by `str.strip()` (ASCII portion). -/
def isPySpace (c : Char) : Bool :=
  c = ' ' ∨ c = '\t' ∨ c = '\n' ∨ c = '\r' ∨ c = '\x0b' ∨ c = '\x0c'

/-- `str.strip()`: drop whitespace from both ends. -/
def pyStrip (s : UrlStr) : UrlStr :=
  ((s.dropWhile isPySpace).reverse.dropWhile isPySpace).reverse

/-- `str.lower()` on one character (ASCII portion, as the URLs here are). -/
def pyLowerChar (c : Char) : Char :=
  if 'A' ≤ c ∧ c ≤ 'Z' then Char.ofNat (c.toNat + 32) else c

/-- `str.lower()`. -/
def pyLower (s : UrlStr) : UrlStr := s.map pyLowerChar

/-- Substring test (Python `needle in hay`). -/
def containsSub (needle hay : UrlStr) : Bool :=
  match hay with
  | [] => needle.isEmpty
  | _ :: t => needle.isPrefixOf hay || containsSub needle t

/-- The recognized direct-image extensions, as listed in the code. -/
def imageExts : List UrlStr :=
  [".jpg".data, ".jpeg".data, ".png".data, ".gif".data, ".bmp".data,
   ".tiff".data, ".webp".data]

/-- `url.lower().endswith(('.jpg', ...))`: the direct-image-link check. -/
def endsWithImageExt (url : UrlStr) : Bool :=
  imageExts.any (fun ext => ext.isSuffixOf (pyLower url))

/-- The image-like URL substrings listed in the code. -/
def imagePatterns : List UrlStr :=
  ["/image/".data, "/photo/".data, "/img/".data, ".png".data, ".jpg".data,
   ".jpeg".data]

/-- `any(pattern in url.lower() for pattern in [...])`: the image-like check. -/
def hasImagePattern (url : UrlStr) : Bool :=
  imagePatterns.any (fun p => containsSub p (pyLower url))

/-- Python `s.split("/")` (keeps empty fields). -/
def splitSlash : UrlStr → List UrlStr
  | [] => [[]]
  | c :: rest =>
    if c = '/' then [] :: splitSlash rest
    else
      match splitSlash rest with
      | [] => [[c]]
      | p :: ps => (c :: p) :: ps

/-- Python `"/".join(parts)`. -/
def joinSlash (parts : List UrlStr) : UrlStr :=
  List.intercalate ['/'] parts

/-- The src rewriting done in the scraping loop: protocol-relative sources
get a literal `"https:"` prefix; root-relative sources are appended to
`"/".join(url.split("/")[:3])`; anything else is left alone. -/
def rewriteSrc (pageUrl src : UrlStr) : UrlStr :=
  if src.take 2 = "//".data then "https:".data ++ src
  else if src.take 1 = "/".data then joinSlash ((splitSlash pageUrl).take 3) ++ src
  else src

/-! ## URL extraction: the embedded functions -/

/-- `download_and_convert(img_url)`: GET with the browser UA and a 10-unit
timeout; a fetch failure (including `raise_for_status`) RAISES out of the
function (`Except.error`); a Pillow decode failure is caught and yields
`None`; otherwise the bitmap is converted to RGB and re-encoded as JPEG.
The second component records the one request issued. -/
def download_and_convert (env : NetEnv) (img_url : UrlStr) :
    Except NetError (Option ByteBuf) × List NetRequest :=
  let req : NetRequest := ⟨img_url, 10, uaHeaders⟩
  match env.fetch img_url with
  | none => (.error .fetchFailed, [req])
  | some content =>
    match env.codec.decode content with
    | none => (.ok none, [req])
    | some img => (.ok (some (env.codec.encodeJPEG (env.codec.convertRGB img))), [req])

/-- The pure conversion step inside `download_and_convert` (the Normalizer of
the spec): decode, convert to RGB, re-encode as JPEG; absence on decode
failure. -/
def normalizeBytes (codec : Codec) (buf : ByteBuf) : Option ByteBuf :=
  match codec.decode buf with
  | none => none
  | some img => some (codec.encodeJPEG (codec.convertRGB img))

/-- The `for tag in img_tags` loop: skip tags without `src`, rewrite the
source, and append the converted bytes of each successful fetch+decode;
both a raised fetch error and a `None` decode result are skipped (the loop
body is wrapped in `try`/`except`). -/
def scrapeLoop (env : NetEnv) (pageUrl : UrlStr) :
    List (Option UrlStr) → List ByteBuf × List NetRequest
  | [] => ([], [])
  | none :: rest => scrapeLoop env pageUrl rest
  | some src :: rest =>
    let dc := download_and_convert env (rewriteSrc pageUrl src)
    let rec2 := scrapeLoop env pageUrl rest
    match dc.1 with
    | .ok (some b) => (b :: rec2.1, dc.2 ++ rec2.2)
    | _ => (rec2.1, dc.2 ++ rec2.2)

/-- The webpage branch of `extract_images_from_url`: `requests.get(url,
timeout=10)` with no extra headers; any failure inside the `try` block is
caught and yields `[]`; otherwise the page is parsed and the scraping loop
runs. -/
def webpageBranch (env : NetEnv) (url : UrlStr) :
    Except NetError (List ByteBuf) × List NetRequest :=
  let pageReq : NetRequest := ⟨url, 10, []⟩
  match env.fetch url with
  | none => (.ok [], [pageReq])
  | some body =>
    let sl := scrapeLoop env url (env.parseImgSrcs body)
    (.ok sl.1, pageReq :: sl.2)

/-- `extract_images_from_url(url)`: strip the input; a direct-extension URL
is fetched once (a fetch failure raises, a decode failure yields `[]`); an
image-like URL is fetched once, falling through to the webpage branch only
when the fetch succeeded but decoding failed (a fetch failure raises);
anything else goes to the webpage branch. -/
def extract_images_from_url (env : NetEnv) (url0 : UrlStr) :
    Except NetError (List ByteBuf) × List NetRequest :=
  let url := pyStrip url0
  if endsWithImageExt url then
    match download_and_convert env url with
    | (.error e, tr) => (.error e, tr)
    | (.ok (some b), tr) => (.ok [b], tr)
    | (.ok none, tr) => (.ok [], tr)
  else if hasImagePattern url then
    match download_and_convert env url with
    | (.error e, tr) => (.error e, tr)
    | (.ok (some b), tr) => (.ok [b], tr)
    | (.ok none, tr) =>
      let (r, tr2) := webpageBranch env url
      (r, tr ++ tr2)
  else
    webpageBranch env url

/-- The branch `extract_images_from_url` chooses for a given input. -/
inductive UrlBranch where
  | direct
  | imageLike
  | webpage
deriving DecidableEq, Repr

/-- Which branch the stripped, lower-cased checks select. -/
def urlBranch (url0 : UrlStr) : UrlBranch :=
  let url := pyStrip url0
  if endsWithImageExt url then .direct
  else if hasImagePattern url then .imageLike
  else .webpage

/-! ## PDF claims -/

lemma pdfPageLoop_eq (doc : PdfDoc) (xrefs : List Nat) :
    ∀ acc, pdfPageLoop doc xrefs acc = acc ++ xrefs.map doc.extractImage := by
  induction xrefs with
  | nil => intro acc; simp [pdfPageLoop]
  | cons x xs ih =>
    intro acc
    have h1 : pdfPageLoop doc (x :: xs) acc
        = pdfPageLoop doc xs (acc ++ [doc.extractImage x]) := rfl
    rw [h1, ih]
    simp

lemma pdfDocLoop_aux (doc : PdfDoc) (pages : List (List Nat)) :
    ∀ acc, pages.foldl (fun acc xrefs => pdfPageLoop doc xrefs acc) acc
      = acc ++ pages.flatMap (fun pg => pg.map doc.extractImage) := by
  induction pages with
  | nil => intro acc; simp
  | cons p ps ih =>
    intro acc
    have h1 : (p :: ps).foldl (fun acc xrefs => pdfPageLoop doc xrefs acc) acc
        = ps.foldl (fun acc xrefs => pdfPageLoop doc xrefs acc) (pdfPageLoop doc p acc) := rfl
    rw [h1, ih, pdfPageLoop_eq]
    simp

lemma pdfDocLoop_eq (doc : PdfDoc) :
    pdfDocLoop doc = doc.pages.flatMap (fun pg => pg.map doc.extractImage) := by
  simpa using pdfDocLoop_aux doc doc.pages []

/-- C1: on a PDF the library can open, `extract_images_from_pdf` returns
exactly the raw bytes of every embedded image, pages in order and images
within a page in the reported order (the flattening of the per-page image
lists), so its length is the total image count N. -/
theorem pdf_extract_all_images_in_order (env : PdfEnv) (path : UrlStr) (doc : PdfDoc)
    (h : env.openDoc path = some doc) :
    extract_images_from_pdf env path
        = .ok (doc.pages.flatMap (fun pg => pg.map doc.extractImage))
      ∧ (doc.pages.flatMap (fun pg => pg.map doc.extractImage)).length
        = (doc.pages.map List.length).sum := by
  constructor
  · simp [extract_images_from_pdf, h, pdfDocLoop_eq]
  · simp only [List.length_flatMap]
    refine congrArg List.sum (List.map_congr_left fun pg _ => ?_)
    simp [Function.comp]

/-- Concrete witness document: two pages, two images then one. -/
def pdfDocW : PdfDoc :=
  { pages := [[11, 12], [23]], extractImage := fun x => [x, x + 1] }

/-- Concrete witness environment: one openable document, all else missing. -/
def pdfEnvW : PdfEnv :=
  { openDoc := fun p => if p = "doc.pdf".data then some pdfDocW else none }

/-- Witness for C1 at the concrete two-page document. -/
theorem pdf_extract_all_images_in_order_witness :
    extract_images_from_pdf pdfEnvW ("doc.pdf".data)
        = .ok (pdfDocW.pages.flatMap (fun pg => pg.map pdfDocW.extractImage))
      ∧ (pdfDocW.pages.flatMap (fun pg => pg.map pdfDocW.extractImage)).length
        = (pdfDocW.pages.map List.length).sum :=
  pdf_extract_all_images_in_order pdfEnvW ("doc.pdf".data) pdfDocW rfl

/-- C2: when the PDF cannot be opened (missing file or unparseable
document), `extract_images_from_pdf` raises `SourceUnavailable` and emits
no buffers at all. -/
theorem pdf_extract_source_unavailable (env : PdfEnv) (path : UrlStr)
    (h : env.openDoc path = none) :
    extract_images_from_pdf env path = .error .sourceUnavailable := by
  simp [extract_images_from_pdf, h]

/-- Witness for C2 at a concrete missing path. -/
theorem pdf_extract_source_unavailable_witness :
    extract_images_from_pdf pdfEnvW ("missing.pdf".data)
      = .error .sourceUnavailable :=
  pdf_extract_source_unavailable pdfEnvW ("missing.pdf".data) rfl

/-! ## URL claims: shared concrete material -/

/-- A concrete Pillow model for witnesses: a "decodable" buffer is
`width :: height :: pixels` (always reported 3-channel), anything shorter
is garbage; RGB conversion forces 3 channels; JPEG encoding is lossy on
pixels (rounds each down to an even value) but stores the dimensions. -/
def codecW : Codec :=
  { decode := fun b =>
      match b with
      | w :: h :: rest => some ⟨w, h, 3, rest⟩
      | _ => none
    convertRGB := fun i => { i with channels := 3 }
    encodeJPEG := fun i => i.width :: i.height :: i.pixels.map (fun p => p / 2 * 2) }

/-- An environment in which every fetch fails. -/
def envFetchFail : NetEnv :=
  { fetch := fun _ => none, parseImgSrcs := fun _ => [], codec := codecW }

/-! ## C3: direct image links -/

lemma extract_direct_eq (env : NetEnv) (u : UrlStr)
    (h : endsWithImageExt (pyStrip u) = true) :
    extract_images_from_url env u =
      match download_and_convert env (pyStrip u) with
      | (.error e, tr) => (.error e, tr)
      | (.ok (some b), tr) => (.ok [b], tr)
      | (.ok none, tr) => (.ok [], tr) := by
  simp only [extract_images_from_url, h, if_true]

/-- C3 counterexample: for `https://example.com/photo.jpg` — a URL whose
trailing path segment has a recognized image extension — a fetch failure
does NOT yield the empty sequence: the fetch error escapes to the caller. -/
theorem direct_url_fetch_failure_raises :
    endsWithImageExt (pyStrip ("https://example.com/photo.jpg".data)) = true
    ∧ (extract_images_from_url envFetchFail ("https://example.com/photo.jpg".data)).1
        = .error .fetchFailed := by
  exact ⟨by decide, by rfl⟩

/-- C3 (amended): for a URL whose stripped, lower-cased form ends with a
recognized image extension, the result has length at most 1; when the fetch
succeeds the call returns normally — one element on decode success, the
empty sequence on decode failure — and the call raises `fetchFailed`
exactly when the fetch fails. -/
theorem direct_url_at_most_one (env : NetEnv) (u : UrlStr)
    (h : endsWithImageExt (pyStrip u) = true) :
    (∀ out, (extract_images_from_url env u).1 = .ok out → out.length ≤ 1)
    ∧ ((extract_images_from_url env u).1 = .error .fetchFailed
        ↔ env.fetch (pyStrip u) = none)
    ∧ (∀ body, env.fetch (pyStrip u) = some body →
        (extract_images_from_url env u).1
          = .ok (normalizeBytes env.codec body).toList) := by
  have he := extract_direct_eq env u h
  cases hf : env.fetch (pyStrip u) with
  | none =>
    have hx : extract_images_from_url env u
        = (.error .fetchFailed, [⟨pyStrip u, 10, uaHeaders⟩]) := by
      rw [he]; simp [download_and_convert, hf]
    refine ⟨?_, ?_, ?_⟩ <;> simp [hx, hf]
  | some body =>
    cases hd : env.codec.decode body with
    | none =>
      have hx : extract_images_from_url env u
          = (.ok [], [⟨pyStrip u, 10, uaHeaders⟩]) := by
        rw [he]; simp [download_and_convert, hf, hd]
      refine ⟨?_, ?_, ?_⟩ <;> simp [hx, hf, normalizeBytes, hd]
    | some img =>
      have hx : extract_images_from_url env u
          = (.ok [env.codec.encodeJPEG (env.codec.convertRGB img)],
             [⟨pyStrip u, 10, uaHeaders⟩]) := by
        rw [he]; simp [download_and_convert, hf, hd]
      refine ⟨?_, ?_, ?_⟩ <;> simp [hx, hf, normalizeBytes, hd]

/-- A direct-image environment where fetch and decode both succeed. -/
def envDirectOk : NetEnv :=
  { fetch := fun v =>
      if v = "https://example.com/photo.jpg".data then some [2, 2, 9, 9, 9, 9] else none
    parseImgSrcs := fun _ => []
    codec := codecW }

/-- Witness for the amended C3, at a direct image URL that fetches and
decodes successfully. -/
theorem direct_url_at_most_one_witness :
    (∀ out, (extract_images_from_url envDirectOk ("https://example.com/photo.jpg".data)).1
        = .ok out → out.length ≤ 1)
    ∧ ((extract_images_from_url envDirectOk ("https://example.com/photo.jpg".data)).1
        = .error .fetchFailed
        ↔ envDirectOk.fetch (pyStrip ("https://example.com/photo.jpg".data)) = none)
    ∧ (∀ body, envDirectOk.fetch (pyStrip ("https://example.com/photo.jpg".data)) = some body →
        (extract_images_from_url envDirectOk ("https://example.com/photo.jpg".data)).1
          = .ok (normalizeBytes envDirectOk.codec body).toList) :=
  direct_url_at_most_one envDirectOk ("https://example.com/photo.jpg".data) (by decide)

/-! ## C4: image-like URL patterns -/

lemma extract_pattern_eq (env : NetEnv) (u : UrlStr)
    (hd : endsWithImageExt (pyStrip u) = false)
    (hp : hasImagePattern (pyStrip u) = true) :
    extract_images_from_url env u =
      match download_and_convert env (pyStrip u) with
      | (.error e, tr) => (.error e, tr)
      | (.ok (some b), tr) => (.ok [b], tr)
      | (.ok none, tr) =>
        ((webpageBranch env (pyStrip u)).1, tr ++ (webpageBranch env (pyStrip u)).2) := by
  simp only [extract_images_from_url, hd, hp, if_false, if_true, Bool.false_eq_true]

/-- C4 counterexample: for `https://example.com/img/3` — which matches the
image-like pattern but not the direct-extension rule — a failure of the
single-image fetch does NOT fall through to webpage scraping: the fetch
error propagates to the caller. -/
theorem image_like_fetch_failure_raises :
    endsWithImageExt (pyStrip ("https://example.com/img/3".data)) = false
    ∧ hasImagePattern (pyStrip ("https://example.com/img/3".data)) = true
    ∧ (extract_images_from_url envFetchFail ("https://example.com/img/3".data)).1
        = .error .fetchFailed := by
  exact ⟨by decide, by decide, by rfl⟩

/-- C4 (amended): for an image-like (but not direct-extension) URL, the
single-image attempt falls through to the webpage-scraping path only when
the fetch succeeded and decoding failed; a fetch failure raises
`fetchFailed` to the caller, and a full success returns that one image. -/
theorem image_like_fallthrough_on_decode_failure (env : NetEnv) (u : UrlStr)
    (hd : endsWithImageExt (pyStrip u) = false)
    (hp : hasImagePattern (pyStrip u) = true) :
    (env.fetch (pyStrip u) = none →
      (extract_images_from_url env u).1 = .error .fetchFailed)
    ∧ (∀ body, env.fetch (pyStrip u) = some body →
        env.codec.decode body = none →
        extract_images_from_url env u
          = ((webpageBranch env (pyStrip u)).1,
             ⟨pyStrip u, 10, uaHeaders⟩ :: (webpageBranch env (pyStrip u)).2))
    ∧ (∀ body img, env.fetch (pyStrip u) = some body →
        env.codec.decode body = some img →
        (extract_images_from_url env u).1
          = .ok [env.codec.encodeJPEG (env.codec.convertRGB img)]) := by
  have he := extract_pattern_eq env u hd hp
  cases hf : env.fetch (pyStrip u) with
  | none =>
    have hx : extract_images_from_url env u
        = (.error .fetchFailed, [⟨pyStrip u, 10, uaHeaders⟩]) := by
      rw [he]; simp [download_and_convert, hf]
    refine ⟨fun _ => by simp [hx], ?_, ?_⟩
    · intro b hb; cases hb
    · intro b im hb; cases hb
  | some body =>
    cases hd2 : env.codec.decode body with
    | none =>
      have hx : extract_images_from_url env u
          = ((webpageBranch env (pyStrip u)).1,
             ⟨pyStrip u, 10, uaHeaders⟩ :: (webpageBranch env (pyStrip u)).2) := by
        rw [he]; simp [download_and_convert, hf, hd2]
      refine ⟨?_, ?_, ?_⟩
      · intro hnone; cases hnone
      · intro b hb hdec; exact hx
      · intro b im hb hdec
        injection hb with hb'
        subst hb'
        rw [hd2] at hdec
        cases hdec
    | some img =>
      have hx : extract_images_from_url env u
          = (.ok [env.codec.encodeJPEG (env.codec.convertRGB img)],
             [⟨pyStrip u, 10, uaHeaders⟩]) := by
        rw [he]; simp [download_and_convert, hf, hd2]
      refine ⟨?_, ?_, ?_⟩
      · intro hnone; cases hnone
      · intro b hb hdec
        injection hb with hb'
        subst hb'
        rw [hd2] at hdec
        cases hdec
      · intro b im hb hdec
        injection hb with hb'
        subst hb'
        rw [hd2] at hdec
        injection hdec with hi
        subst hi
        simp [hx]

/-- An image-like URL whose fetch succeeds but whose body is not an image,
so the code falls through to scraping (the page then has no `<img>` tags). -/
def envImgFall : NetEnv :=
  { fetch := fun v => if v = "https://example.com/img/3".data then some [7] else none
    parseImgSrcs := fun _ => []
    codec := codecW }

/-- Witness for the amended C4, at an image-like URL whose body fails to
decode. -/
theorem image_like_fallthrough_witness :
    (envImgFall.fetch (pyStrip ("https://example.com/img/3".data)) = none →
      (extract_images_from_url envImgFall ("https://example.com/img/3".data)).1
        = .error .fetchFailed)
    ∧ (∀ body, envImgFall.fetch (pyStrip ("https://example.com/img/3".data)) = some body →
        envImgFall.codec.decode body = none →
        extract_images_from_url envImgFall ("https://example.com/img/3".data)
          = ((webpageBranch envImgFall (pyStrip ("https://example.com/img/3".data))).1,
             ⟨pyStrip ("https://example.com/img/3".data), 10, uaHeaders⟩
               :: (webpageBranch envImgFall (pyStrip ("https://example.com/img/3".data))).2))
    ∧ (∀ body img,
        envImgFall.fetch (pyStrip ("https://example.com/img/3".data)) = some body →
        envImgFall.codec.decode body = some img →
        (extract_images_from_url envImgFall ("https://example.com/img/3".data)).1
          = .ok [envImgFall.codec.encodeJPEG (envImgFall.codec.convertRGB img)]) :=
  image_like_fallthrough_on_decode_failure envImgFall ("https://example.com/img/3".data)
    (by decide) (by decide)

/-! ## C5: webpage scraping is best-effort and order-preserving -/

/-- The outcome of one scraping-loop iteration for a resolvable source:
`some` converted bytes when the resolved URL fetches and decodes, `none`
when the attempt raises (caught by the loop's `try`) or decodes to nothing. -/
def fetchedImage (env : NetEnv) (pageUrl src : UrlStr) : Option ByteBuf :=
  match (download_and_convert env (rewriteSrc pageUrl src)).1 with
  | .ok (some b) => some b
  | _ => none

lemma download_trace (env : NetEnv) (u : UrlStr) :
    (download_and_convert env u).2 = [⟨u, 10, uaHeaders⟩] := by
  cases hf : env.fetch u with
  | none => simp [download_and_convert, hf]
  | some c => cases hd : env.codec.decode c <;> simp [download_and_convert, hf, hd]

lemma scrapeLoop_eq (env : NetEnv) (pageUrl : UrlStr) (srcs : List (Option UrlStr)) :
    scrapeLoop env pageUrl srcs
      = ((srcs.filterMap id).filterMap (fetchedImage env pageUrl),
         (srcs.filterMap id).map (fun src => ⟨rewriteSrc pageUrl src, 10, uaHeaders⟩)) := by
  induction srcs with
  | nil => rfl
  | cons o rest ih =>
    cases o with
    | none => simpa [scrapeLoop] using ih
    | some src =>
      simp only [scrapeLoop]
      rw [download_trace]
      cases hres : (download_and_convert env (rewriteSrc pageUrl src)).1 with
      | error e => simp [ih, fetchedImage, hres]
      | ok ob => cases ob <;> simp [ih, fetchedImage, hres]

lemma extract_webpage_eq (env : NetEnv) (u : UrlStr)
    (hd : endsWithImageExt (pyStrip u) = false)
    (hp : hasImagePattern (pyStrip u) = false) :
    extract_images_from_url env u = webpageBranch env (pyStrip u) := by
  simp only [extract_images_from_url, hd, hp, Bool.false_eq_true, if_false]

/-- C5: on the webpage path, with K `<img>` tags that actually carry a
`src`, the result is exactly the list of successfully fetched-and-decoded
images, in document order (a `filterMap` of the source list), and hence
has length at most K; individual failures are skipped, never aborting the
batch. -/
theorem webpage_scrape_in_order (env : NetEnv) (u : UrlStr)
    (hd : endsWithImageExt (pyStrip u) = false)
    (hp : hasImagePattern (pyStrip u) = false)
    (body : ByteBuf) (hf : env.fetch (pyStrip u) = some body) :
    (extract_images_from_url env u).1
      = .ok (((env.parseImgSrcs body).filterMap id).filterMap (fetchedImage env (pyStrip u)))
    ∧ ∀ imgs, (extract_images_from_url env u).1 = .ok imgs →
        imgs.length ≤ ((env.parseImgSrcs body).filterMap id).length := by
  have he := extract_webpage_eq env u hd hp
  have hb : (extract_images_from_url env u).1
      = .ok (((env.parseImgSrcs body).filterMap id).filterMap (fetchedImage env (pyStrip u))) := by
    rw [he]
    simp [webpageBranch, hf, scrapeLoop_eq]
  refine ⟨hb, ?_⟩
  intro imgs himgs
  rw [hb] at himgs
  injection himgs with h'
  subst h'
  exact List.length_filterMap_le _ _

/-- A concrete webpage environment: page with four `<img>` tags — one with
no `src` at all, one whose fetch fails, one whose body fails to decode, and
one that succeeds. -/
def envPageW : NetEnv :=
  { fetch := fun v =>
      if v = "https://example.com/page.html".data then some [1]
      else if v = "https://example.com/a.png".data then some [2, 2, 1, 2]
      else if v = "https://example.com/garbage.png".data then some [9]
      else none
    parseImgSrcs := fun b =>
      if b = [1] then
        [some "/a.png".data, none, some "/bad.png".data, some "/garbage.png".data]
      else []
    codec := codecW }

/-- Witness for C5 at the concrete four-tag page. -/
theorem webpage_scrape_in_order_witness :
    (extract_images_from_url envPageW ("https://example.com/page.html".data)).1
      = .ok (((envPageW.parseImgSrcs [1]).filterMap id).filterMap
          (fetchedImage envPageW (pyStrip ("https://example.com/page.html".data))))
    ∧ ∀ imgs,
        (extract_images_from_url envPageW ("https://example.com/page.html".data)).1
          = .ok imgs →
        imgs.length ≤ ((envPageW.parseImgSrcs [1]).filterMap id).length :=
  webpage_scrape_in_order envPageW ("https://example.com/page.html".data)
    (by decide) (by decide) [1] (by rfl)

/-! ## C6: src rewriting against the page URL -/

/-- An http page whose single `<img>` has a protocol-relative source. -/
def envC6 : NetEnv :=
  { fetch := fun v =>
      if v = "http://example.com/page.html".data then some [1]
      else if v = "https://cdn.example.com/b.png".data then some [2, 2, 5]
      else none
    parseImgSrcs := fun b =>
      if b = [1] then [some "//cdn.example.com/b.png".data] else []
    codec := codecW }

/-- C6 counterexample: on a page served over http, the protocol-relative
source `//cdn.example.com/b.png` is fetched as `https://cdn.example.com/b.png`
— a literal `https:` prefix — and not against the page's own scheme
(`http:`), contradicting the claim's universal "page's own scheme" rule. -/
theorem protocol_relative_ignores_page_scheme :
    ((extract_images_from_url envC6 ("http://example.com/page.html".data)).2.map
        NetRequest.url)
      = ["http://example.com/page.html".data, "https://cdn.example.com/b.png".data]
    ∧ (splitSlash ("http://example.com/page.html".data)).take 1 = ["http:".data]
    ∧ "http://cdn.example.com/b.png".data
        ∉ ((extract_images_from_url envC6 ("http://example.com/page.html".data)).2.map
            NetRequest.url) := by
  exact ⟨by decide, by decide, by decide⟩

/-- C6 (amended): on the webpage path the fetched URLs are, in document
order, the page itself followed by each resolvable source rewritten by the
code's rule: a source starting `//` gets the literal prefix `https:`
(which coincides with the page's scheme only for https pages), and a
source starting `/` is appended to `"/".join(url.split("/")[:3])`, i.e.
the page's own scheme and host. -/
theorem webpage_fetch_urls (env : NetEnv) (u : UrlStr)
    (hd : endsWithImageExt (pyStrip u) = false)
    (hp : hasImagePattern (pyStrip u) = false)
    (body : ByteBuf) (hf : env.fetch (pyStrip u) = some body) :
    ((extract_images_from_url env u).2.map NetRequest.url)
      = pyStrip u :: ((env.parseImgSrcs body).filterMap id).map (rewriteSrc (pyStrip u))
    ∧ (∀ page src, src.take 2 = "//".data →
        rewriteSrc page src = "https:".data ++ src)
    ∧ (∀ page src, src.take 2 ≠ "//".data → src.take 1 = "/".data →
        rewriteSrc page src = joinSlash ((splitSlash page).take 3) ++ src) := by
  refine ⟨?_, ?_, ?_⟩
  · rw [extract_webpage_eq env u hd hp]
    simp [webpageBranch, hf, scrapeLoop_eq, List.map_map, Function.comp]
  · intro page src h
    simp [rewriteSrc, h]
  · intro page src h1 h2
    simp [rewriteSrc, h1, h2]

/-- The spec's https scenario: page `https://example.com/page.html` with
`<img src="/a.png">` and `<img src="//cdn.example.com/b.png">`. -/
def envC6b : NetEnv :=
  { fetch := fun v =>
      if v = "https://example.com/page.html".data then some [1]
      else if v = "https://example.com/a.png".data then some [2, 2, 1]
      else if v = "https://cdn.example.com/b.png".data then some [3, 3, 2]
      else none
    parseImgSrcs := fun b =>
      if b = [1] then [some "/a.png".data, some "//cdn.example.com/b.png".data]
      else []
    codec := codecW }

/-- Witness for the amended C6: in the https scenario the fetched URLs are
`https://example.com/a.png` then `https://cdn.example.com/b.png`, as the
spec's example states. -/
theorem webpage_fetch_urls_witness :
    ((extract_images_from_url envC6b ("https://example.com/page.html".data)).2.map
        NetRequest.url)
      = ["https://example.com/page.html".data,
         "https://example.com/a.png".data,
         "https://cdn.example.com/b.png".data] := by
  have h := webpage_fetch_urls envC6b ("https://example.com/page.html".data)
    (by decide) (by decide) [1] (by rfl)
  exact h.1.trans (by decide)

/-! ## C7: the network contract -/

lemma extract_direct_trace (env : NetEnv) (u : UrlStr)
    (h : endsWithImageExt (pyStrip u) = true) :
    (extract_images_from_url env u).2 = [⟨pyStrip u, 10, uaHeaders⟩] := by
  rw [extract_direct_eq env u h]
  have htr := download_trace env (pyStrip u)
  rcases hdc : download_and_convert env (pyStrip u) with ⟨res, tr⟩
  rw [hdc] at htr
  cases res with
  | error e => simpa using htr
  | ok ob => cases ob <;> simpa using htr

lemma webpage_trace (env : NetEnv) (url : UrlStr) :
    ∀ r ∈ (webpageBranch env url).2,
      r.timeout = 10 ∧ (r.headers = uaHeaders ∨ r = ⟨url, 10, []⟩) := by
  intro r hr
  cases hf : env.fetch url with
  | none =>
    rw [webpageBranch] at hr
    rw [hf] at hr
    simp at hr
    subst hr
    exact ⟨rfl, Or.inr rfl⟩
  | some body =>
    rw [webpageBranch] at hr
    rw [hf] at hr
    simp [scrapeLoop_eq] at hr
    rcases hr with hr | ⟨src, hsrc, hr⟩
    · subst hr; exact ⟨rfl, Or.inr rfl⟩
    · subst hr; exact ⟨rfl, Or.inl rfl⟩

lemma trace_requests (env : NetEnv) (u : UrlStr) :
    ∀ r ∈ (extract_images_from_url env u).2,
      r.timeout = 10 ∧ (r.headers = uaHeaders ∨ r = ⟨pyStrip u, 10, []⟩) := by
  intro r hr
  by_cases hd : endsWithImageExt (pyStrip u) = true
  · rw [extract_direct_trace env u hd] at hr
    simp at hr
    subst hr
    exact ⟨rfl, Or.inl rfl⟩
  · replace hd : endsWithImageExt (pyStrip u) = false := by simpa using hd
    by_cases hp : hasImagePattern (pyStrip u) = true
    · have he := extract_pattern_eq env u hd hp
      have htr := download_trace env (pyStrip u)
      rcases hdc : download_and_convert env (pyStrip u) with ⟨res, tr⟩
      rw [hdc] at htr
      rw [he, hdc] at hr
      subst htr
      cases res with
      | error e =>
        simp at hr
        subst hr
        exact ⟨rfl, Or.inl rfl⟩
      | ok ob =>
        cases ob with
        | none =>
          simp at hr
          rcases hr with hr | hr
          · subst hr; exact ⟨rfl, Or.inl rfl⟩
          · exact webpage_trace env (pyStrip u) r hr
        | some b =>
          simp at hr
          subst hr
          exact ⟨rfl, Or.inl rfl⟩
    · replace hp : hasImagePattern (pyStrip u) = false := by simpa using hp
      rw [extract_webpage_eq env u hd hp] at hr
      exact webpage_trace env (pyStrip u) r hr

/-- C7 counterexample: for a plain webpage URL the HTML page fetch itself
is issued with NO extra headers — in particular without the desktop-browser
`User-Agent` — so not every outbound request carries the identification
string. -/
theorem page_fetch_missing_user_agent :
    (extract_images_from_url envFetchFail ("https://example.com/".data)).2
      = [⟨pyStrip ("https://example.com/".data), 10, []⟩]
    ∧ ¬ (∀ r ∈ (extract_images_from_url envFetchFail ("https://example.com/".data)).2,
          ("User-Agent", uaString) ∈ r.headers) := by
  exact ⟨by rfl, by decide⟩

/-- C7 (amended): every outbound request uses a timeout of 10, and every
request except the bare HTML page fetch (`⟨pyStrip u, 10, []⟩`, which
carries no extra headers) has the browser `User-Agent` headers; every
request issued by `download_and_convert` itself carries the `User-Agent`
headers and the 10-unit timeout. -/
theorem network_requests_timeout_and_ua (env : NetEnv) (u v : UrlStr) (r s : NetRequest)
    (hr : r ∈ (extract_images_from_url env u).2)
    (hs : s ∈ (download_and_convert env v).2) :
    (r.timeout = 10 ∧ (r.headers = uaHeaders ∨ r = ⟨pyStrip u, 10, []⟩))
    ∧ (s.timeout = 10 ∧ s.headers = uaHeaders) := by
  refine ⟨trace_requests env u r hr, ?_⟩
  rw [download_trace] at hs
  simp at hs
  subst hs
  exact ⟨rfl, rfl⟩

/-- Witness for the amended C7: the page request of the concrete scraping
environment and an image request of `download_and_convert`. -/
theorem network_requests_timeout_and_ua_witness :
    ((⟨"https://example.com/page.html".data, 10, []⟩ : NetRequest)
        ∈ (extract_images_from_url envPageW ("https://example.com/page.html".data)).2)
    ∧ (((⟨"https://example.com/page.html".data, 10, []⟩ : NetRequest).timeout = 10
        ∧ ((⟨"https://example.com/page.html".data, 10, []⟩ : NetRequest).headers = uaHeaders
            ∨ (⟨"https://example.com/page.html".data, 10, []⟩ : NetRequest)
                = ⟨pyStrip ("https://example.com/page.html".data), 10, []⟩))
      ∧ ((⟨"https://example.com/x.bin".data, 10, uaHeaders⟩ : NetRequest).timeout = 10
        ∧ (⟨"https://example.com/x.bin".data, 10, uaHeaders⟩ : NetRequest).headers
            = uaHeaders)) := by
  refine ⟨by decide, ?_⟩
  exact network_requests_timeout_and_ua envPageW
    ("https://example.com/page.html".data) ("https://example.com/x.bin".data)
    ⟨"https://example.com/page.html".data, 10, []⟩
    ⟨"https://example.com/x.bin".data, 10, uaHeaders⟩
    (by decide) (by decide)

/-! ## C8: the Normalizer is pure and deterministic -/

/-- Two successive calls of the normalization step on the same buffer,
sharing nothing but the (immutable) codec. -/
def normalizeTwice (codec : Codec) (b : ByteBuf) : Option ByteBuf × Option ByteBuf :=
  (normalizeBytes codec b, normalizeBytes codec b)

/-- C8: normalization is a pure, deterministic function of its input
buffer: calling it twice yields byte-identical output both times, and its
result depends on nothing besides the buffer (equal buffers give equal
results). -/
theorem normalize_pure_deterministic (codec : Codec) (b b' : ByteBuf) (h : b = b') :
    (normalizeTwice codec b).1 = (normalizeTwice codec b).2
    ∧ normalizeBytes codec b = normalizeBytes codec b' := by
  subst h
  exact ⟨rfl, rfl⟩

/-- Witness for C8 at a concrete decodable buffer. -/
theorem normalize_pure_deterministic_witness :
    (normalizeTwice codecW [2, 2, 9]).1 = (normalizeTwice codecW [2, 2, 9]).2
    ∧ normalizeBytes codecW [2, 2, 9] = normalizeBytes codecW [2, 2, 9] :=
  normalize_pure_deterministic codecW [2, 2, 9] [2, 2, 9] rfl

/-! ## C9: round-trip preserves dimensions and channel count -/

/-- C9: for any codec whose RGB conversion preserves dimensions and yields
3 channels, and whose JPEG round-trip preserves dimensions and channel
count of 3-channel bitmaps (as Pillow's does, lossy only in pixel values),
every buffer the Normalizer successfully converts decodes back to a
3-channel bitmap with exactly the source bitmap's width and height. -/
theorem normalize_roundtrip_dims (codec : Codec)
    (hconv : ∀ i : Bitmap, (codec.convertRGB i).width = i.width
        ∧ (codec.convertRGB i).height = i.height ∧ (codec.convertRGB i).channels = 3)
    (hjpeg : ∀ i : Bitmap, i.channels = 3 →
        ∃ j, codec.decode (codec.encodeJPEG i) = some j
          ∧ j.width = i.width ∧ j.height = i.height ∧ j.channels = 3)
    (b out : ByteBuf) (hout : normalizeBytes codec b = some out) :
    ∃ src j, codec.decode b = some src
      ∧ codec.decode out = some j
      ∧ j.width = src.width ∧ j.height = src.height ∧ j.channels = 3 := by
  unfold normalizeBytes at hout
  cases hsrc : codec.decode b with
  | none => rw [hsrc] at hout; cases hout
  | some src =>
    rw [hsrc] at hout
    injection hout with hout'
    obtain ⟨j, hj, hw, hh, hc⟩ := hjpeg (codec.convertRGB src) (hconv src).2.2
    refine ⟨src, j, rfl, ?_, ?_, ?_, hc⟩
    · rw [← hout']; exact hj
    · rw [hw, (hconv src).1]
    · rw [hh, (hconv src).2.1]

/-- Witness for C9: the concrete model codec satisfies both codec
hypotheses, and the buffer `[5, 7, 9, 4]` (a 5×7 bitmap) normalizes to
`[5, 7, 8, 4]`, which decodes back to a 3-channel 5×7 bitmap. -/
theorem normalize_roundtrip_dims_witness :
    normalizeBytes codecW [5, 7, 9, 4] = some [5, 7, 8, 4]
    ∧ ∃ src j, codecW.decode [5, 7, 9, 4] = some src
        ∧ codecW.decode [5, 7, 8, 4] = some j
        ∧ j.width = src.width ∧ j.height = src.height ∧ j.channels = 3 :=
  ⟨by decide,
   normalize_roundtrip_dims codecW
    (fun i => ⟨rfl, rfl, rfl⟩)
    (fun i _ =>
      ⟨⟨i.width, i.height, 3, i.pixels.map (fun p => p / 2 * 2)⟩, rfl, rfl, rfl, rfl⟩)
    [5, 7, 9, 4] [5, 7, 8, 4] (by decide)⟩

/-! ## C10: stripping and case-insensitive checks -/

lemma pyStrip_pad (u ws1 ws2 : UrlStr)
    (h1 : ∀ c ∈ ws1, isPySpace c = true) (h2 : ∀ c ∈ ws2, isPySpace c = true) :
    pyStrip (ws1 ++ u ++ ws2) = pyStrip u := by
  unfold pyStrip
  rw [List.append_assoc, List.dropWhile_append_of_pos h1]
  by_cases hu : (u.dropWhile isPySpace).isEmpty
  · have hu' : u.dropWhile isPySpace = [] := by
      simpa [List.isEmpty_iff] using hu
    have hw : ws2.dropWhile isPySpace = [] := List.dropWhile_eq_nil_iff.mpr h2
    rw [List.dropWhile_append]
    simp [hu, hu', hw]
  · rw [List.dropWhile_append]
    simp only [hu, if_false, Bool.false_eq_true]
    rw [List.reverse_append,
      List.dropWhile_append_of_pos (fun c hc => h2 c (List.mem_reverse.mp hc))]

/-- C10: the input is stripped before any branch is chosen, so
whitespace-padded inputs choose the same branch and produce the same
result; and the two branch checks factor through `str.lower()`, so inputs
with equal lower-cased forms are checked identically (case-insensitivity). -/
theorem strip_then_branch_case_insensitive (env : NetEnv) (u ws1 ws2 v : UrlStr)
    (h1 : ∀ c ∈ ws1, isPySpace c = true) (h2 : ∀ c ∈ ws2, isPySpace c = true) :
    urlBranch (ws1 ++ u ++ ws2) = urlBranch u
    ∧ extract_images_from_url env (ws1 ++ u ++ ws2) = extract_images_from_url env u
    ∧ (pyLower v = pyLower u →
        endsWithImageExt v = endsWithImageExt u
        ∧ hasImagePattern v = hasImagePattern u) := by
  have hs := pyStrip_pad u ws1 ws2 h1 h2
  refine ⟨?_, ?_, ?_⟩
  · simp only [urlBranch, hs]
  · simp only [extract_images_from_url, hs]
  · intro hlow
    exact ⟨by simp only [endsWithImageExt, hlow],
           by simp only [hasImagePattern, hlow]⟩

/-- Witness for C10: concrete whitespace padding and an upper-cased variant
of a direct image URL. -/
theorem strip_then_branch_case_insensitive_witness :
    urlBranch (" ".data ++ "https://example.com/photo.jpg".data ++ "  ".data)
      = urlBranch ("https://example.com/photo.jpg".data)
    ∧ extract_images_from_url envDirectOk
        (" ".data ++ "https://example.com/photo.jpg".data ++ "  ".data)
      = extract_images_from_url envDirectOk ("https://example.com/photo.jpg".data)
    ∧ (pyLower ("HTTPS://EXAMPLE.COM/PHOTO.JPG".data)
        = pyLower ("https://example.com/photo.jpg".data) →
        endsWithImageExt ("HTTPS://EXAMPLE.COM/PHOTO.JPG".data)
          = endsWithImageExt ("https://example.com/photo.jpg".data)
        ∧ hasImagePattern ("HTTPS://EXAMPLE.COM/PHOTO.JPG".data)
          = hasImagePattern ("https://example.com/photo.jpg".data)) :=
  strip_then_branch_case_insensitive envDirectOk
    ("https://example.com/photo.jpg".data) (" ".data) ("  ".data)
    ("HTTPS://EXAMPLE.COM/PHOTO.JPG".data)
    (by decide) (by decide)
